import Mathlib

/-!
Shallow embedding of the zone-copy/delete tool (package `dns` plus the two
command `App.Run` orchestrators) and proofs of the specification claims.

Go strings are modelled as Lean `String`; Go `*string` pointers that are
only copied or read through `aws.ToString` are `Option String` (with
`aws.ToString nil = ""`); pointers that the code dereferences
unconditionally (record-set and zone names) are plain `String`.
Byte-indexed slicing in `strings.HasSuffix` / `domain[:len(domain)-1]`
coincides with character operations here because the only suffix ever used
is the single-byte ".". Effectful API calls are passed in as explicit
`Except` results, and the orchestration functions return a trace of which
destructive calls were made.
-/

namespace Route53Copy

/-- Go `aws.ToString`: dereference a `*string`, `nil` becomes `""`. -/
def awsToString : Option String → String
  | none => ""
  | some s => s

/-- Go `rtypes.RRTypeNs` (RRType is a string enum). -/
def RRTypeNs : String := "NS"

/-- Go `rtypes.RRTypeSoa`. -/
def RRTypeSoa : String := "SOA"

/-- Go `rtypes.ChangeActionUpsert` (ChangeAction is a string enum). -/
def ChangeActionUpsert : String := "UPSERT"

/-- Go `rtypes.ChangeActionDelete`. -/
def ChangeActionDelete : String := "DELETE"

/-- Go `strings.HasSuffix s suffix`:
`len(s) >= len(suffix) && s[len(s)-len(suffix):] == suffix`. -/
def hasSuffix (s suffix : String) : Bool :=
  decide (suffix.length ≤ s.length) && (s.data.drop (s.length - suffix.length) == suffix.data)

/-- `normalizeDomain` from `pkg/dns/route53.go`: append a trailing dot
when absent. -/
def normalizeDomain (domain : String) : String :=
  if hasSuffix domain "." then domain else domain ++ "."

/-- `denormalizeDomain` from `pkg/dns/route53.go`: strip the trailing dot
(`domain[:len(domain)-1]`) when present. -/
def denormalizeDomain (domain : String) : String :=
  if hasSuffix domain "." then String.mk domain.data.dropLast else domain

/-- Go `rtypes.AliasTarget` (opaque routing meta, copied verbatim). -/
structure AliasTarget where
  dnsName : Option String
  evaluateTargetHealth : Bool
  hostedZoneId : Option String
deriving DecidableEq, Repr

/-- Go `rtypes.GeoLocation` (opaque routing meta, copied verbatim). -/
structure GeoLocation where
  continentCode : Option String
  countryCode : Option String
  subdivisionCode : Option String
deriving DecidableEq, Repr

/-- Go `rtypes.ResourceRecord`: a single record value (`Value *string`). -/
structure ResourceRecord where
  value : Option String
deriving DecidableEq, Repr

/-- Go `rtypes.ResourceRecordSet`, restricted to the fields the program
reads or copies. `Name` is dereferenced unconditionally in `CreateChanges`
and `GetHostedZone`, so it is a plain `String`. -/
structure ResourceRecordSet where
  name : String
  type : String
  aliasTarget : Option AliasTarget
  failover : String
  geoLocation : Option GeoLocation
  healthCheckId : Option String
  multiValueAnswer : Option Bool
  region : String
  resourceRecords : List ResourceRecord
  setIdentifier : Option String
  ttl : Option Int
  trafficPolicyInstanceId : Option String
  weight : Option Int
deriving DecidableEq, Repr

/-- Go `rtypes.Change`: `{Action, ResourceRecordSet}` (the pointer is
always set by this program). -/
structure Change where
  action : String
  resourceRecordSet : ResourceRecordSet
deriving DecidableEq, Repr

/-- Go `rdtypes.Nameserver` (route53domains): `Name *string, GlueIps []string`. -/
structure Nameserver where
  name : Option String
  glueIps : List String
deriving DecidableEq, Repr

/-- Go `rtypes.HostedZone`, restricted to the fields the program uses.
`Name` is dereferenced unconditionally in `GetHostedZone`. -/
structure HostedZone where
  id : Option String
  name : String
  resourceRecordSetCount : Option Int
deriving DecidableEq, Repr

/-- Error values the program distinguishes (via `errors.As`) or surfaces.
`hostedZoneNotFound` and `nsRecordNotFound` are the two error structs
defined in `pkg/dns`; every other error is carried as an opaque message. -/
inductive GoError where
  | hostedZoneNotFound (zone : String)
  | nsRecordNotFound (domain : String)
  | apiError (msg : String)
deriving DecidableEq, Repr

/-- C8 support: appending a dot always yields a dot-terminated string. -/
theorem hasSuffix_append_dot (x : String) : hasSuffix (x ++ ".") "." = true := by
  cases x with
  | mk d =>
    show (decide (1 ≤ (d ++ ['.']).length) &&
      ((d ++ ['.']).drop ((d ++ ['.']).length - 1) == ['.'])) = true
    have h1 : (d ++ ['.']).length - 1 = d.length := by
      simp
    have h2 : (1 ≤ (d ++ ['.']).length) := by
      simp
    rw [h1, List.drop_left]
    simp [h2]

/-- C8 support: `normalizeDomain` appends exactly one trailing dot when
the input is not dot-terminated. -/
theorem normalizeDomain_eq_append (x : String) (h : hasSuffix x "." = false) :
    normalizeDomain x = x ++ "." := by
  unfold normalizeDomain
  rw [h]
  rfl

/-- C8 support: `denormalizeDomain` strips exactly one trailing dot. -/
theorem denormalizeDomain_append_dot (x : String) :
    denormalizeDomain (x ++ ".") = x := by
  unfold denormalizeDomain
  rw [hasSuffix_append_dot]
  cases x with
  | mk d =>
    show String.mk ((d ++ ['.']).dropLast) = String.mk d
    rw [List.dropLast_concat]

/-- The field-by-field copy of a record set performed inside both
`CreateChanges` and `DeleteRecords` (`&rtypes.ResourceRecordSet{...}`). -/
def copyRecordSet (recordSet : ResourceRecordSet) : ResourceRecordSet :=
  { name := recordSet.name
    type := recordSet.type
    aliasTarget := recordSet.aliasTarget
    failover := recordSet.failover
    geoLocation := recordSet.geoLocation
    healthCheckId := recordSet.healthCheckId
    multiValueAnswer := recordSet.multiValueAnswer
    region := recordSet.region
    resourceRecords := recordSet.resourceRecords
    setIdentifier := recordSet.setIdentifier
    ttl := recordSet.ttl
    trafficPolicyInstanceId := recordSet.trafficPolicyInstanceId
    weight := recordSet.weight }

/-- The loop body of `CreateChanges` (`pkg/dns/route53.go`): skip a record
set whose type is NS or SOA and whose name equals the (already
normalized) domain, otherwise emit an UPSERT change copying every field. -/
def createChangesLoop (domain : String) : List ResourceRecordSet → List Change
  | [] => []
  | recordSet :: rest =>
    if (recordSet.type = RRTypeNs ∨ recordSet.type = RRTypeSoa) ∧ recordSet.name = domain then
      createChangesLoop domain rest
    else
      { action := ChangeActionUpsert, resourceRecordSet := copyRecordSet recordSet } ::
        createChangesLoop domain rest

/-- `CreateChanges` from `pkg/dns/route53.go`: normalize the domain, then
run the filtering loop over the record sets. -/
def CreateChanges (domain : String) (recordSets : List ResourceRecordSet) : List Change :=
  createChangesLoop (normalizeDomain domain) recordSets

/-- The change-building loop of `DeleteRecords` (`pkg/dns/route53.go`):
skip every record of type NS or SOA (no name check — the function does not
receive the domain), otherwise emit a DELETE change copying every field.
The subsequent `ChangeResourceRecordSets` submission is effectful and
modelled at the orchestrator level. -/
def DeleteRecordsChanges : List ResourceRecordSet → List Change
  | [] => []
  | record :: rest =>
    if record.type = RRTypeNs ∨ record.type = RRTypeSoa then
      DeleteRecordsChanges rest
    else
      { action := ChangeActionDelete, resourceRecordSet := copyRecordSet record } ::
        DeleteRecordsChanges rest

/-- `findInList` from `pkg/dns/route53.go`: linear scan for a nameserver
whose (dereferenced) name equals `name`. -/
def findInList (ns : List Nameserver) (name : String) : Bool :=
  match ns with
  | [] => false
  | n :: rest => if awsToString n.name = name then true else findInList rest name

/-- The loop of `MatchNSRecords` over the record set's values. -/
def matchNSLoop (ns : List Nameserver) : List ResourceRecord → Bool
  | [] => true
  | r :: rest =>
    if findInList ns (denormalizeDomain (awsToString r.value)) then matchNSLoop ns rest
    else false

/-- `MatchNSRecords` from `pkg/dns/route53.go`: true iff every value of
the zone NS record set, denormalized, is found in the registrar
nameserver list. -/
def MatchNSRecords (ns : List Nameserver) (rs : ResourceRecordSet) : Bool :=
  matchNSLoop ns rs.resourceRecords

/-- `nameserversFromRecords` from `pkg/dns/route53.go`: one `Nameserver`
per record value, name set to the denormalized value. -/
def nameserversFromRecords (rs : ResourceRecordSet) : List Nameserver :=
  rs.resourceRecords.map
    (fun r => { name := some (denormalizeDomain (awsToString r.value)), glueIps := [] })

/-- The scan inside `GetNSRecords` (`pkg/dns/route53.go`): return the
first record set of type NS. -/
def findFirstNS : List ResourceRecordSet → Option ResourceRecordSet
  | [] => none
  | r :: rest => if r.type ≠ RRTypeNs then findFirstNS rest else some r

/-- `GetNSRecords` from `pkg/dns/route53.go`, parameterized by the result
of its `GetResourceRecords` call: propagate the fetch error, otherwise
return the first NS record set or fail with "no NS records found". -/
def GetNSRecords (fetched : Except GoError (List ResourceRecordSet)) :
    Except GoError ResourceRecordSet :=
  match fetched with
  | .error e => .error e
  | .ok records =>
    match findFirstNS records with
    | some r => .ok r
    | none => .error (.apiError "no NS records found")

/-- `GetHostedZone` from `pkg/dns/route53.go` (the current version, with
the empty-list guard), parameterized by the `ListHostedZonesByName`
response: propagate an API error; an empty zone list or a first zone
whose name differs from the normalized domain is `HostedZoneNotFound`;
otherwise the first zone is returned. -/
def GetHostedZone (domain : String) (listByName : Except GoError (List HostedZone)) :
    Except GoError HostedZone :=
  match listByName with
  | .error e => .error e
  | .ok zones =>
    match zones with
    | [] => .error (.hostedZoneNotFound domain)
    | zone :: _ =>
      if zone.name ≠ normalizeDomain domain then .error (.hostedZoneNotFound domain)
      else .ok zone

deriving instance DecidableEq for Except

/-- Environment for `UpdateNSRecords`: the results its three API calls
would produce (`GetResourceRecords` inside `GetNSRecords`,
`GetDomainDetail`'s nameserver list, `UpdateDomainNameservers`). -/
structure UpdateNSEnv where
  getResourceRecords : Except GoError (List ResourceRecordSet)
  getDomainDetail : Except GoError (List Nameserver)
  updateDomainNameservers : Except GoError String
deriving DecidableEq, Repr

/-- Observable outcome of `UpdateNSRecords`: the returned
`(bool, error)` pair, whether `UpdateDomainNameservers` was called, and
with which nameserver list. -/
structure UpdateNSTrace where
  result : Except GoError Bool
  updateCalled : Bool
  updateNameservers : Option (List Nameserver)
deriving DecidableEq, Repr

/-- `UpdateNSRecords` from `pkg/dns/route53.go`: fetch the zone's NS
record set and the registrar's nameservers; when `MatchNSRecords` holds
return `(false, nil)` without updating, otherwise call
`UpdateDomainNameservers` with `nameserversFromRecords` of the zone NS
set and return `(true, nil)` on success. -/
def UpdateNSRecords (env : UpdateNSEnv) : UpdateNSTrace :=
  match GetNSRecords env.getResourceRecords with
  | .error e => { result := .error e, updateCalled := false, updateNameservers := none }
  | .ok nsRecords =>
    match env.getDomainDetail with
    | .error e => { result := .error e, updateCalled := false, updateNameservers := none }
    | .ok nameservers =>
      if MatchNSRecords nameservers nsRecords then
        { result := .ok false, updateCalled := false, updateNameservers := none }
      else
        let newNS := nameserversFromRecords nsRecords
        match env.updateDomainNameservers with
        | .error e => { result := .error e, updateCalled := true, updateNameservers := some newNS }
        | .ok _ => { result := .ok true, updateCalled := true, updateNameservers := some newNS }

/-- Modelled from the spec: `FindNSRecord`, called by the delete
workflow's `App.Run`; its definition is not among the provided source
files. Per spec section 4.2, ResolveZoneNS "fetches the zone's own NS
record set; fails if none exists". Here it selects the NS record set
from the already-fetched record list, failing when no record set has
type NS (the same scan `GetNSRecords` performs in the provided source). -/
def FindNSRecord (recordSets : List ResourceRecordSet) : Except GoError ResourceRecordSet :=
  match findFirstNS recordSets with
  | some r => .ok r
  | none => .error (.apiError "no NS records found")

/-- Modelled from the spec: `RemoveResourceRecordsWithTypes`, called by
the delete workflow's `App.Run` with `[NS, SOA]`; its definition is not
among the provided source files. Per spec section 4.6 the delete
workflow builds its deletion set by excluding NS/SOA record sets; this
models removal of every record set whose type is in the given list. -/
def RemoveResourceRecordsWithTypes (recordSets : List ResourceRecordSet)
    (types : List String) : List ResourceRecordSet :=
  recordSets.filter (fun r => !(types.contains r.type))

/-- The flags of the delete command's `App` (profile/domain omitted:
they only select the environment). -/
structure DeleteApp where
  dryRun : Bool
  force : Bool
deriving DecidableEq, Repr

/-- Environment for the delete workflow `App.Run`: the results its API
calls and the confirmation prompt would produce, in call order. -/
structure DeleteEnv where
  getHostedZone : Except GoError HostedZone
  getResourceRecords : Except GoError (List ResourceRecordSet)
  getNameserversFor : Except GoError (List Nameserver)
  promptRun : Except GoError String
  deleteRecords : Except GoError String
  waitDeleteRecords : Except GoError Unit
  deleteHostedZone : Except GoError String
  waitDeleteZone : Except GoError Unit
deriving DecidableEq, Repr

/-- Observable outcome of the delete workflow: the returned error value
and whether the two destructive calls (`DeleteRecords`,
`DeleteHostedZone`) were made. -/
structure DeleteTrace where
  result : Except GoError Unit
  deleteRecordsCalled : Bool
  deleteHostedZoneCalled : Bool
deriving DecidableEq, Repr

/-- The delete command's `App.Run` (the `route53delete` orchestrator):
fetch zone and records; resolve live NS (an `NSRecordNotFound` there
forces `force := true` instead of failing); find the zone's own NS
record; abort cleanly when `MatchNSRecords` holds and not forced; strip
NS/SOA; stop on dry-run; stop cleanly on prompt failure or a
non-"y" answer; else delete records, wait, delete the zone, wait. -/
def runDelete (a : DeleteApp) (env : DeleteEnv) : DeleteTrace :=
  match env.getHostedZone with
  | .error e => { result := .error e, deleteRecordsCalled := false, deleteHostedZoneCalled := false }
  | .ok _zone =>
  match env.getResourceRecords with
  | .error e => { result := .error e, deleteRecordsCalled := false, deleteHostedZoneCalled := false }
  | .ok recordSets =>
  match (match env.getNameserversFor with
         | .error (.nsRecordNotFound _) => .ok ([], true)
         | .error e => .error e
         | .ok ns => .ok (ns, a.force) : Except GoError (List Nameserver × Bool)) with
  | .error e => { result := .error e, deleteRecordsCalled := false, deleteHostedZoneCalled := false }
  | .ok (ns, force) =>
  match FindNSRecord recordSets with
  | .error e => { result := .error e, deleteRecordsCalled := false, deleteHostedZoneCalled := false }
  | .ok nsRecords =>
  if MatchNSRecords ns nsRecords && !force then
    { result := .ok (), deleteRecordsCalled := false, deleteHostedZoneCalled := false }
  else
  let _remaining := RemoveResourceRecordsWithTypes recordSets [RRTypeNs, RRTypeSoa]
  if a.dryRun then
    { result := .ok (), deleteRecordsCalled := false, deleteHostedZoneCalled := false }
  else
  match env.promptRun with
  | .error _ => { result := .ok (), deleteRecordsCalled := false, deleteHostedZoneCalled := false }
  | .ok answer =>
  if answer ≠ "y" then
    { result := .ok (), deleteRecordsCalled := false, deleteHostedZoneCalled := false }
  else
  match env.deleteRecords with
  | .error e => { result := .error e, deleteRecordsCalled := true, deleteHostedZoneCalled := false }
  | .ok _ =>
  match env.waitDeleteRecords with
  | .error e => { result := .error e, deleteRecordsCalled := true, deleteHostedZoneCalled := false }
  | .ok _ =>
  match env.deleteHostedZone with
  | .error e => { result := .error e, deleteRecordsCalled := true, deleteHostedZoneCalled := true }
  | .ok _ =>
  match env.waitDeleteZone with
  | .error e => { result := .error e, deleteRecordsCalled := true, deleteHostedZoneCalled := true }
  | .ok _ => { result := .ok (), deleteRecordsCalled := true, deleteHostedZoneCalled := true }

/-- A concrete record-set fixture: the routing-meta fields of a plain
record as the SDK would return them. -/
def mkRecord (name rtype : String) (values : List String) : ResourceRecordSet :=
  { name := name
    type := rtype
    aliasTarget := none
    failover := ""
    geoLocation := none
    healthCheckId := none
    multiValueAnswer := none
    region := ""
    resourceRecords := values.map (fun v => { value := some v })
    setIdentifier := none
    ttl := some 300
    trafficPolicyInstanceId := none
    weight := none }

theorem copyRecordSet_eq (r : ResourceRecordSet) : copyRecordSet r = r := rfl

theorem boolEqOfIff {a b : Bool} (h : (a = true) ↔ (b = true)) : a = b := by
  cases a <;> cases b <;> simp_all

theorem createChangesLoop_eq (domain : String) (recordSets : List ResourceRecordSet) :
    createChangesLoop domain recordSets =
      (recordSets.filter
        (fun r => !(decide ((r.type = RRTypeNs ∨ r.type = RRTypeSoa) ∧ r.name = domain)))).map
        (fun r => { action := ChangeActionUpsert, resourceRecordSet := r }) := by
  induction recordSets with
  | nil => rfl
  | cons r rest ih =>
    simp only [createChangesLoop, List.filter_cons]
    by_cases h : (r.type = RRTypeNs ∨ r.type = RRTypeSoa) ∧ r.name = domain
    · rw [if_pos h, ih, if_neg (by simp [h])]
    · rw [if_neg h, ih, if_pos (by simp [h])]
      simp [copyRecordSet_eq]

theorem deleteRecordsChanges_eq (records : List ResourceRecordSet) :
    DeleteRecordsChanges records =
      (records.filter (fun r => !(decide (r.type = RRTypeNs ∨ r.type = RRTypeSoa)))).map
        (fun r => { action := ChangeActionDelete, resourceRecordSet := r }) := by
  induction records with
  | nil => rfl
  | cons r rest ih =>
    simp only [DeleteRecordsChanges, List.filter_cons]
    by_cases h : r.type = RRTypeNs ∨ r.type = RRTypeSoa
    · rw [if_pos h, ih, if_neg (by simp [h])]
    · rw [if_neg h, ih, if_pos (by simp [h])]
      simp [copyRecordSet_eq]

/-- C1: `CreateChanges` never outputs a change whose record set has type
NS or SOA and whose name is the normalized domain (the zone apex); apex
NS/SOA inputs are excluded from the change set. -/
theorem claim_createChanges_no_apex_ns_soa (domain : String)
    (recordSets : List ResourceRecordSet) (c : Change)
    (hc : c ∈ CreateChanges domain recordSets)
    (ht : c.resourceRecordSet.type = RRTypeNs ∨ c.resourceRecordSet.type = RRTypeSoa) :
    c.resourceRecordSet.name ≠ normalizeDomain domain := by
  rw [CreateChanges, createChangesLoop_eq] at hc
  rcases List.mem_map.mp hc with ⟨r, hr, hcr⟩
  rcases List.mem_filter.mp hr with ⟨_, hkeep⟩
  subst hcr
  simp only [Bool.not_eq_eq_eq_not, Bool.not_true, decide_eq_false_iff_not] at hkeep
  intro hname
  exact hkeep ⟨ht, hname⟩

theorem claim_createChanges_no_apex_ns_soa_witness :
    ({ action := ChangeActionUpsert, resourceRecordSet := mkRecord "ns.other.com." RRTypeNs [] } : Change)
        ∈ CreateChanges "example.com" [mkRecord "ns.other.com." RRTypeNs []] ∧
      ({ action := ChangeActionUpsert, resourceRecordSet := mkRecord "ns.other.com." RRTypeNs [] } :
        Change).resourceRecordSet.name ≠ normalizeDomain "example.com" :=
  ⟨by decide,
   claim_createChanges_no_apex_ns_soa "example.com" [mkRecord "ns.other.com." RRTypeNs []] _
     (by decide) (by decide)⟩

/-- C2 counterexample: a non-apex NS record (name `sub.example.com.`,
zone domain `example.com`) produces no DELETE change at all —
`DeleteRecords` drops every NS/SOA record regardless of name, contrary
to the claim that only apex NS/SOA are excluded. -/
theorem claim_deleteRecords_counterexample :
    (mkRecord "sub.example.com." RRTypeNs ["ns1.example.com."]).type = RRTypeNs ∧
      (mkRecord "sub.example.com." RRTypeNs ["ns1.example.com."]).name ≠
        normalizeDomain "example.com" ∧
      DeleteRecordsChanges [mkRecord "sub.example.com." RRTypeNs ["ns1.example.com."]] = [] := by
  refine ⟨rfl, by decide, rfl⟩

/-- C2 amended: `DeleteRecords` builds a DELETE change, preserving every
field and the input order, for every record except those of type NS or
SOA; all NS and SOA records are excluded regardless of their name. -/
theorem claim_deleteRecords_excludes_all_ns_soa (records : List ResourceRecordSet) :
    DeleteRecordsChanges records =
      (records.filter (fun r => !(decide (r.type = RRTypeNs ∨ r.type = RRTypeSoa)))).map
        (fun r => { action := ChangeActionDelete, resourceRecordSet := r }) :=
  deleteRecordsChanges_eq records

/-- C7: every non-excluded input record appears in `CreateChanges`'
output as an UPSERT change with all fields preserved, in input order,
with no sorting and no deduplication. -/
theorem claim_createChanges_preserves (domain : String)
    (recordSets : List ResourceRecordSet) :
    CreateChanges domain recordSets =
      (recordSets.filter
        (fun r =>
          !(decide ((r.type = RRTypeNs ∨ r.type = RRTypeSoa) ∧
            r.name = normalizeDomain domain)))).map
        (fun r => { action := ChangeActionUpsert, resourceRecordSet := r }) :=
  createChangesLoop_eq (normalizeDomain domain) recordSets

theorem findInList_eq_true_iff (ns : List Nameserver) (name : String) :
    findInList ns name = true ↔ ∃ n ∈ ns, awsToString n.name = name := by
  induction ns with
  | nil => simp [findInList]
  | cons n rest ih =>
    by_cases h : awsToString n.name = name
    · simp [findInList, h]
    · simp [findInList, h, ih]

theorem matchNSLoop_eq_true_iff (ns : List Nameserver) (rr : List ResourceRecord) :
    matchNSLoop ns rr = true ↔
      ∀ r ∈ rr, findInList ns (denormalizeDomain (awsToString r.value)) = true := by
  induction rr with
  | nil => simp [matchNSLoop]
  | cons r rest ih =>
    by_cases h : findInList ns (denormalizeDomain (awsToString r.value)) = true
    · simp [matchNSLoop, h, ih]
    · have hb : findInList ns (denormalizeDomain (awsToString r.value)) = false :=
        Bool.eq_false_iff.mpr h
      simp only [matchNSLoop, hb, if_false, Bool.false_eq_true, false_iff]
      intro hall
      exact h (hall r (List.mem_cons_self r rest))

theorem matchNSRecords_eq_true_iff (ns : List Nameserver) (rs : ResourceRecordSet) :
    MatchNSRecords ns rs = true ↔
      ∀ r ∈ rs.resourceRecords, ∃ n ∈ ns,
        awsToString n.name = denormalizeDomain (awsToString r.value) := by
  rw [MatchNSRecords, matchNSLoop_eq_true_iff]
  constructor
  · intro h r hr
    exact (findInList_eq_true_iff ns _).mp (h r hr)
  · intro h r hr
    exact (findInList_eq_true_iff ns _).mpr (h r hr)

theorem matchNSRecords_mem_congr (ns ns' : List Nameserver) (rr rr' : List ResourceRecord)
    (hns : ∀ n, n ∈ ns ↔ n ∈ ns') (hrr : ∀ r, r ∈ rr ↔ r ∈ rr')
    (rs rs' : ResourceRecordSet) (h1 : rs.resourceRecords = rr)
    (h2 : rs'.resourceRecords = rr') :
    MatchNSRecords ns rs = MatchNSRecords ns' rs' := by
  apply boolEqOfIff
  rw [matchNSRecords_eq_true_iff, matchNSRecords_eq_true_iff, h1, h2]
  constructor
  · intro h r hr
    rcases h r ((hrr r).mpr hr) with ⟨n, hn, he⟩
    exact ⟨n, (hns n).mp hn, he⟩
  · intro h r hr
    rcases h r ((hrr r).mp hr) with ⟨n, hn, he⟩
    exact ⟨n, (hns n).mpr hn, he⟩

/-- C5: `MatchNSRecords ns rs` is true iff every value of the zone NS
record set, denormalized, appears as a name in the registrar list (a
one-directional zone-subset-of-registrar check); the result is unchanged
under permutation of either list and under deduplication of either
list. -/
theorem claim_matchNSRecords_subset_check (ns ns' : List Nameserver)
    (rs : ResourceRecordSet) (rr' : List ResourceRecord) :
    (MatchNSRecords ns rs = true ↔
      ∀ r ∈ rs.resourceRecords, ∃ n ∈ ns,
        awsToString n.name = denormalizeDomain (awsToString r.value)) ∧
    (ns.Perm ns' → MatchNSRecords ns rs = MatchNSRecords ns' rs) ∧
    (rs.resourceRecords.Perm rr' →
      MatchNSRecords ns rs = MatchNSRecords ns { rs with resourceRecords := rr' }) ∧
    (MatchNSRecords ns.dedup rs = MatchNSRecords ns rs) ∧
    (MatchNSRecords ns { rs with resourceRecords := rs.resourceRecords.dedup } =
      MatchNSRecords ns rs) := by
  refine ⟨matchNSRecords_eq_true_iff ns rs, ?_, ?_, ?_, ?_⟩
  · intro hperm
    exact matchNSRecords_mem_congr ns ns' rs.resourceRecords rs.resourceRecords
      (fun n => hperm.mem_iff) (fun r => Iff.rfl) rs rs rfl rfl
  · intro hperm
    exact matchNSRecords_mem_congr ns ns rs.resourceRecords rr'
      (fun n => Iff.rfl) (fun r => hperm.mem_iff) rs _ rfl rfl
  · exact matchNSRecords_mem_congr ns.dedup ns rs.resourceRecords rs.resourceRecords
      (fun n => List.mem_dedup) (fun r => Iff.rfl) rs rs rfl rfl
  · exact matchNSRecords_mem_congr ns ns rs.resourceRecords.dedup rs.resourceRecords
      (fun n => Iff.rfl) (fun r => List.mem_dedup) _ rs rfl rfl

theorem claim_matchNSRecords_subset_check_witness :
    ([({ name := some "ns1.example.com", glueIps := [] } : Nameserver),
      { name := some "ns2.example.com", glueIps := [] }].Perm
      [({ name := some "ns2.example.com", glueIps := [] } : Nameserver),
       { name := some "ns1.example.com", glueIps := [] }]) ∧
    MatchNSRecords
        [{ name := some "ns1.example.com", glueIps := [] },
         { name := some "ns2.example.com", glueIps := [] }]
        (mkRecord "example.com." RRTypeNs ["ns1.example.com.", "ns2.example.com."]) =
      MatchNSRecords
        [{ name := some "ns2.example.com", glueIps := [] },
         { name := some "ns1.example.com", glueIps := [] }]
        (mkRecord "example.com." RRTypeNs ["ns1.example.com.", "ns2.example.com."]) :=
  ⟨by decide,
   (claim_matchNSRecords_subset_check _ _ _ []).2.1 (by decide)⟩

/-- C10 (implicit): a zone NS record set with zero values satisfies
`MatchNSRecords` against every registrar nameserver list — the subset
check is vacuously true. -/
theorem claim_matchNSRecords_empty_values (ns : List Nameserver) (rs : ResourceRecordSet)
    (h : rs.resourceRecords = []) : MatchNSRecords ns rs = true := by
  rw [MatchNSRecords, h]
  rfl

theorem claim_matchNSRecords_empty_values_witness :
    (mkRecord "example.com." RRTypeNs []).resourceRecords = [] ∧
      MatchNSRecords [{ name := some "ns1.example.com", glueIps := [] }]
        (mkRecord "example.com." RRTypeNs []) = true :=
  ⟨rfl, claim_matchNSRecords_empty_values _ _ rfl⟩

/-- C4: `GetHostedZone` returns `HostedZoneNotFound` both on an empty
zone list and when the first zone's name differs from the normalized
domain; otherwise it returns the first listed zone. -/
theorem claim_getHostedZone_notFound (domain : String) (zone : HostedZone)
    (rest : List HostedZone) :
    (GetHostedZone domain (.ok []) = .error (.hostedZoneNotFound domain)) ∧
    (zone.name ≠ normalizeDomain domain →
      GetHostedZone domain (.ok (zone :: rest)) = .error (.hostedZoneNotFound domain)) ∧
    (zone.name = normalizeDomain domain →
      GetHostedZone domain (.ok (zone :: rest)) = .ok zone) := by
  refine ⟨rfl, ?_, ?_⟩
  · intro h
    simp [GetHostedZone, h]
  · intro h
    simp [GetHostedZone, h]

theorem claim_getHostedZone_notFound_witness :
    (({ id := some "Z1", name := "other.com.", resourceRecordSetCount := some 2 } :
        HostedZone).name ≠ normalizeDomain "example.com") ∧
      GetHostedZone "example.com"
          (.ok [{ id := some "Z1", name := "other.com.", resourceRecordSetCount := some 2 }]) =
        .error (.hostedZoneNotFound "example.com") :=
  ⟨by decide,
   (claim_getHostedZone_notFound "example.com"
      { id := some "Z1", name := "other.com.", resourceRecordSetCount := some 2 } []).2.1
     (by decide)⟩

theorem findFirstNS_eq_none_iff (records : List ResourceRecordSet) :
    findFirstNS records = none ↔ ∀ r ∈ records, r.type ≠ RRTypeNs := by
  induction records with
  | nil => simp [findFirstNS]
  | cons r rest ih =>
    by_cases h : r.type = RRTypeNs
    · simp [findFirstNS, h]
    · simp [findFirstNS, h, ih]

theorem findFirstNS_eq_some (records : List ResourceRecordSet) (rs : ResourceRecordSet)
    (h : findFirstNS records = some rs) : rs.type = RRTypeNs ∧ rs ∈ records := by
  induction records with
  | nil => simp [findFirstNS] at h
  | cons r rest ih =>
    by_cases hr : r.type = RRTypeNs
    · rw [findFirstNS, if_neg (by simp [hr])] at h
      rcases Option.some.inj h with rfl
      exact ⟨hr, List.mem_cons_self r rest⟩
    · rw [findFirstNS, if_pos (by simp [hr])] at h
      rcases ih h with ⟨ht, hm⟩
      exact ⟨ht, List.mem_cons_of_mem r hm⟩

/-- C9: `GetNSRecords` (on a successful record listing) fails exactly
when the listing contains no record set of type NS, and on success
returns a record set of type NS drawn from the listing. -/
theorem claim_getNSRecords (records : List ResourceRecordSet) :
    ((∃ e, GetNSRecords (.ok records) = .error e) ↔ ∀ r ∈ records, r.type ≠ RRTypeNs) ∧
    (∀ rs, GetNSRecords (.ok records) = .ok rs → rs.type = RRTypeNs ∧ rs ∈ records) := by
  constructor
  · constructor
    · intro ⟨e, he⟩
      rw [← findFirstNS_eq_none_iff]
      cases hf : findFirstNS records with
      | none => rfl
      | some r => simp [GetNSRecords, hf] at he
    · intro h
      rw [← findFirstNS_eq_none_iff] at h
      exact ⟨.apiError "no NS records found", by simp [GetNSRecords, h]⟩
  · intro rs hrs
    cases hf : findFirstNS records with
    | none => simp [GetNSRecords, hf] at hrs
    | some r =>
      simp only [GetNSRecords, hf, Except.ok.injEq] at hrs
      subst hrs
      exact findFirstNS_eq_some records r hf

theorem claim_getNSRecords_witness :
    (mkRecord "example.com." RRTypeNs ["ns1.example.com."]).type = RRTypeNs ∧
      (mkRecord "example.com." RRTypeNs ["ns1.example.com."]) ∈
        [mkRecord "www.example.com." "A" ["1.2.3.4"],
         mkRecord "example.com." RRTypeNs ["ns1.example.com."]] :=
  (claim_getNSRecords
      [mkRecord "www.example.com." "A" ["1.2.3.4"],
       mkRecord "example.com." RRTypeNs ["ns1.example.com."]]).2
    (mkRecord "example.com." RRTypeNs ["ns1.example.com."]) (by decide)

/-- C6: `UpdateNSRecords` is a no-op returning `false` when
`MatchNSRecords` holds; otherwise it issues exactly one
`UpdateDomainNameservers` call carrying the zone's NS values
denormalized, returning `true` on success. -/
theorem claim_updateNSRecords (env : UpdateNSEnv) (nsRec : ResourceRecordSet)
    (registrar : List Nameserver) (opId : String)
    (h1 : GetNSRecords env.getResourceRecords = .ok nsRec)
    (h2 : env.getDomainDetail = .ok registrar) :
    (MatchNSRecords registrar nsRec = true →
      UpdateNSRecords env =
        { result := .ok false, updateCalled := false, updateNameservers := none }) ∧
    (MatchNSRecords registrar nsRec = false → env.updateDomainNameservers = .ok opId →
      UpdateNSRecords env =
        { result := .ok true, updateCalled := true,
          updateNameservers := some (nameserversFromRecords nsRec) }) ∧
    ((nameserversFromRecords nsRec).map (fun n => awsToString n.name) =
      nsRec.resourceRecords.map (fun r => denormalizeDomain (awsToString r.value))) := by
  refine ⟨?_, ?_, ?_⟩
  · intro hm
    simp [UpdateNSRecords, h1, h2, hm]
  · intro hm hup
    simp [UpdateNSRecords, h1, h2, hm, hup]
  · simp [nameserversFromRecords, List.map_map, Function.comp, awsToString]

/-- Fixture: the zone's own NS record set at the apex of `example.com`. -/
def sampleNSRecord : ResourceRecordSet :=
  mkRecord "example.com." RRTypeNs ["ns1.example.com.", "ns2.example.com."]

/-- Fixture: registrar nameservers matching `sampleNSRecord`. -/
def sampleRegistrarNS : List Nameserver :=
  [{ name := some "ns1.example.com", glueIps := [] },
   { name := some "ns2.example.com", glueIps := [] }]

/-- Fixture: an `UpdateNSRecords` environment whose registrar list is
empty (mismatched) and whose update call succeeds. -/
def sampleUpdateNSEnv : UpdateNSEnv :=
  { getResourceRecords := .ok [sampleNSRecord]
    getDomainDetail := .ok []
    updateDomainNameservers := .ok "op-1" }

theorem claim_updateNSRecords_witness :
    MatchNSRecords ([] : List Nameserver) sampleNSRecord = false ∧
      UpdateNSRecords sampleUpdateNSEnv =
        { result := .ok true, updateCalled := true,
          updateNameservers := some (nameserversFromRecords sampleNSRecord) } :=
  ⟨by decide,
   (claim_updateNSRecords sampleUpdateNSEnv sampleNSRecord [] "op-1" rfl rfl).2.1
     (by decide) rfl⟩

/-- C3: in the delete workflow without `--force`, when live NS resolution
succeeds and `MatchNSRecords` holds against the zone's own NS record,
`App.Run` performs neither `DeleteRecords` nor `DeleteHostedZone` and
returns no error. -/
theorem claim_runDelete_abort_on_match (a : DeleteApp) (env : DeleteEnv)
    (z : HostedZone) (recordSets : List ResourceRecordSet)
    (ns : List Nameserver) (nsRecords : ResourceRecordSet)
    (h1 : env.getHostedZone = .ok z)
    (h2 : env.getResourceRecords = .ok recordSets)
    (h3 : env.getNameserversFor = .ok ns)
    (h4 : FindNSRecord recordSets = .ok nsRecords)
    (h5 : MatchNSRecords ns nsRecords = true)
    (h6 : a.force = false) :
    runDelete a env =
      { result := .ok (), deleteRecordsCalled := false,
        deleteHostedZoneCalled := false } := by
  simp [runDelete, h1, h2, h3, h4, h5, h6]

/-- Fixture: a delete-workflow environment for a domain whose live NS
matches the zone's own NS record set. -/
def sampleDeleteEnv : DeleteEnv :=
  { getHostedZone := .ok { id := some "Z1", name := "example.com.", resourceRecordSetCount := some 3 }
    getResourceRecords := .ok [sampleNSRecord, mkRecord "www.example.com." "A" ["1.2.3.4"]]
    getNameserversFor := .ok sampleRegistrarNS
    promptRun := .ok "y"
    deleteRecords := .ok "chg-1"
    waitDeleteRecords := .ok ()
    deleteHostedZone := .ok "chg-2"
    waitDeleteZone := .ok () }

theorem claim_runDelete_abort_on_match_witness :
    MatchNSRecords sampleRegistrarNS sampleNSRecord = true ∧
      runDelete { dryRun := false, force := false } sampleDeleteEnv =
        { result := .ok (), deleteRecordsCalled := false,
          deleteHostedZoneCalled := false } :=
  ⟨by decide,
   claim_runDelete_abort_on_match { dryRun := false, force := false } sampleDeleteEnv
     _ _ _ _ rfl rfl rfl rfl (by decide) rfl⟩

/-- C8: for a domain string not already dot-terminated, `normalizeDomain`
appends exactly one trailing dot, `denormalizeDomain` strips exactly one
trailing dot, and the two are inverse. -/
theorem claim_normalize_denormalize_inverse (x : String)
    (h : hasSuffix x "." = false) :
    normalizeDomain x = x ++ "." ∧
    denormalizeDomain (x ++ ".") = x ∧
    denormalizeDomain (normalizeDomain x) = x := by
  refine ⟨normalizeDomain_eq_append x h, denormalizeDomain_append_dot x, ?_⟩
  rw [normalizeDomain_eq_append x h, denormalizeDomain_append_dot x]

theorem claim_normalize_denormalize_inverse_witness :
    hasSuffix "example.com" "." = false ∧
      denormalizeDomain (normalizeDomain "example.com") = "example.com" :=
  ⟨by decide, (claim_normalize_denormalize_inverse "example.com" (by decide)).2.2⟩

end Route53Copy
